import Mathlib

/-!
Shallow embedding of the tree-walking JavaScript evaluator of
`src/homework/3/eval.js` (final revision, the one exported by the module)
together with the scope-stack classes of `src/unnamed/part_000`
(`Scope`, `scopeStack`, `FlowStatement`).

Modelling choices:
* JS numbers are modelled as `Int`; none of the verified programs divides
  or produces non-integers, `NaN` or `Infinity`.
* Host exceptions (user `throw`, `TypeError`, the structural
  `Unsupported Syntax` `Error`) all travel on one exception channel, as in
  the source, where every one of them is a host JS exception caught by the
  same host `try`/`catch`.
* `Scope` objects live on a heap addressed by numeric ids and the scope
  stack holds ids, mirroring JS reference semantics: handlers keep a
  reference to a `Scope` object and read its fields after it was popped,
  and `scopeStack.pop()` removes whatever is last even when that is not
  the scope the caller created.
* Plain runtime objects are stored by value inside bindings; the verified
  programs never alias one mutable object through two bindings.
* Recursion is bounded by explicit fuel; running out of fuel yields
  `none`, distinct from every value and every exception.
-/

set_option maxRecDepth 8000

namespace JsEval

mutual

inductive Value where
  | undefined : Value
  | null : Value
  | bool : Bool → Value
  | num : Int → Value
  | str : String → Value
  | obj : List (String × Value) → Value
  | arr : List Value → Value
  | closure : List String → Node → Option (List (String × Value)) → Value
  | jsError : String → String → Value

inductive Node where
  | program : List Node → Node
  | exprStmt : Node → Node
  | lit : Value → Node
  | ident : String → Node
  | binary : String → Node → Node → Node
  | logical : String → Node → Node → Node
  | assign : String → Node → Node → Node
  | updateExpr : String → Node → Node
  | call : Node → List Node → Node
  | arrowFn : List String → Node → Node
  | funcExpr : Option Node → List String → Node → Node
  | condExpr : Node → Node → Node → Node
  | ifStmt : Node → Node → Option Node → Node
  | objExpr : List (String × Node) → Node
  | arrExpr : List Node → Node
  | seqExpr : List Node → Node
  | memberExpr : Node → Node → Node
  | block : List Node → Node
  | varDecl : String → List Node → Node
  | varDeclarator : Node → Option Node → Node
  | ret : Node → Node
  | forStmt : Node → Node → Node → Node → Node
  | whileStmt : Node → Node → Node
  | tryStmt : Option Node → Option Node → Option Node → Node
  | throwStmt : Node → Node
  | catchClause : String → Node → Node
  | switchStmt : Node → List (Node × List Node) → Node
  | continueStmt : Node
  | unsupported : String → Nat → Nat → Node

end

/-- The externally supplied initial bindings table (`env` in the source). -/
abbrev Env := List (String × Value)

/-- The ESTree `type` tag of a node, as the source reads it in error
messages and in `getKeyList`. Node kinds the evaluator has no handler for
are collapsed into the `unsupported` constructor, which carries the tag. -/
def nodeTypeName : Node → String
  | .program _ => ("Program")
  | .exprStmt _ => ("ExpressionStatement")
  | .lit _ => ("Literal")
  | .ident _ => ("Identifier")
  | .binary _ _ _ => ("BinaryExpression")
  | .logical _ _ _ => ("LogicalExpression")
  | .assign _ _ _ => ("AssignmentExpression")
  | .updateExpr _ _ => ("UpdateExpression")
  | .call _ _ => ("CallExpression")
  | .arrowFn _ _ => ("ArrowFunctionExpression")
  | .funcExpr _ _ _ => ("FunctionExpression")
  | .condExpr _ _ _ => ("ConditionalExpression")
  | .ifStmt _ _ _ => ("IfStatement")
  | .objExpr _ => ("ObjectExpression")
  | .arrExpr _ => ("ArrayExpression")
  | .seqExpr _ => ("SequenceExpression")
  | .memberExpr _ _ => ("MemberExpression")
  | .block _ => ("BlockStatement")
  | .varDecl _ _ => ("VariableDeclaration")
  | .varDeclarator _ _ => ("VariableDeclarator")
  | .ret _ => ("ReturnStatement")
  | .forStmt _ _ _ _ => ("ForStatement")
  | .whileStmt _ _ => ("WhileStatement")
  | .tryStmt _ _ _ => ("TryStatement")
  | .throwStmt _ => ("ThrowStatement")
  | .catchClause _ _ => ("CatchClause")
  | .switchStmt _ _ => ("SwitchStatement")
  | .continueStmt => ("ContinueStatement")
  | .unsupported t _ _ => t

/-- JS truthiness, as used by `if`, `?:`, loops, and `||`/`&&`. -/
def truthy : Value → Bool
  | .undefined => false
  | .null => false
  | .bool b => b
  | .num n => n != 0
  | .str s => s != ("")
  | _ => true

/-- String coercion used by `+` concatenation and property keys. Array and
closure stringification is not modelled; no verified program stringifies
either. -/
def jsToString : Value → String
  | .undefined => ("undefined")
  | .null => ("null")
  | .bool true => ("true")
  | .bool false => ("false")
  | .num n => toString n
  | .str s => s
  | .obj _ => ("[object Object]")
  | .arr _ => ("")
  | .closure _ _ _ => ("function")
  | .jsError name msg => name ++ (": ") ++ msg

/-- JS strict equality `===` on the value kinds the verified programs
compare (primitives). Composite values compare by reference identity in
JS; plain-object identity is not tracked here and no verified program
compares composites, so those cases are conservatively `false`. -/
def strictEq : Value → Value → Bool
  | .undefined, .undefined => true
  | .null, .null => true
  | .bool a, .bool b => a == b
  | .num a, .num b => a == b
  | .str a, .str b => a == b
  | _, _ => false

/-- JS `+`: numeric addition, or string concatenation when either operand
is a string. Other coercions (boolean/null/undefined to number) are not
modelled and yield `undefined`; no verified program exercises them. -/
def jsAdd : Value → Value → Value
  | .num a, .num b => .num (a + b)
  | .str s, v => .str (s ++ jsToString v)
  | v, .str s => .str (jsToString v ++ s)
  | _, _ => .undefined

/-- JS `-` restricted to numbers; other coercions unmodelled. -/
def jsSub : Value → Value → Value
  | .num a, .num b => .num (a - b)
  | _, _ => .undefined

/-- JS `*` restricted to numbers; other coercions unmodelled. -/
def jsMul : Value → Value → Value
  | .num a, .num b => .num (a * b)
  | _, _ => .undefined

/-- JS `/`: only exact integer division is modelled (IEEE-754 is not); no
verified program divides. -/
def jsDiv : Value → Value → Value
  | .num a, .num b => if b != 0 && a % b == 0 then .num (a / b) else .undefined
  | _, _ => .undefined

/-- JS `<` on numbers and strings; mixed operands coerce through NaN and
compare false, which the fallback mirrors for the unmodelled cases. -/
def jsLt : Value → Value → Value
  | .num a, .num b => .bool (a < b)
  | .str a, .str b => .bool (a < b)
  | _, _ => .bool false

/-- JS `<=` on numbers and strings; fallback as in `jsLt`. -/
def jsLe : Value → Value → Value
  | .num a, .num b => .bool (a ≤ b)
  | .str a, .str b => .bool (a ≤ b)
  | _, _ => .bool false

/-- JS `>` on numbers and strings; fallback as in `jsLt`. -/
def jsGt : Value → Value → Value
  | .num a, .num b => .bool (b < a)
  | .str a, .str b => .bool (b < a)
  | _, _ => .bool false

/-- Property read `v[k]` after the base was checked against
undefined/null. Reads from primitives yield undefined, as in JS for
absent wrapper properties. -/
def getProp : Value → String → Value
  | .obj fields, k =>
    match fields.find? (fun p => p.1 == k) with
    | some p => p.2
    | none => .undefined
  | .arr els, k =>
    match k.toNat? with
    | some i => els.getD i .undefined
    | none => .undefined
  | _, _ => .undefined

/-- Overwrite or append one own property of an object value. -/
def setAssoc : List (String × Value) → String → Value → List (String × Value)
  | [], k, nv => [(k, nv)]
  | (k1, v1) :: rest, k, nv =>
    if k1 == k then (k1, nv) :: rest else (k1, v1) :: setAssoc rest k nv

/-- Property write `v[k] = nv`. Writes to primitives are silently ignored
(non-strict JS); array writes only within bounds (no verified program
extends an array). -/
def setProp : Value → String → Value → Value
  | .obj fields, k, nv => .obj (setAssoc fields k nv)
  | .arr els, k, nv =>
    match k.toNat? with
    | some i => .arr (els.set i nv)
    | none => .arr els
  | v, _, _ => v

/-- The `subKey.reduce` walk of `Scope.set`: descend through the nested
value along the key path and replace the final component. The verified
programs only use depth-one paths over existing objects, where this
functional update coincides with the source's in-place mutation. -/
def setPath : Value → List String → Value → Value
  | v, [], _ => v
  | v, [k], nv => setProp v k nv
  | v, k :: rest, nv => setProp v k (setPath (getProp v k) rest nv)

/-- `getKeyList` of the source: an assignment target decomposed into its
leading identifier and trailing member keys; other node kinds throw. -/
def getKeyList : Node → Except Value (List String)
  | .ident name => .ok [name]
  | .memberExpr object property => do
    let keys ← getKeyList object
    let subKeys ← getKeyList property
    .ok (keys ++ subKeys)
  | n =>
    .error (.jsError ("Error") (("Unsupported getKeyList ") ++ nodeTypeName n))

/-- `FlowStatement` of `src/unnamed/part_000`: a pending control signal
(`break` / `return` / `continue`) with its carried value. -/
structure FlowStatement where
  type : String
  value : Value

/-- One entry of a scope's definition stack (`ScopeValueItem`). The key is
a `Value` because `evaluateVariableDeclarator` stores `evaluate(id)`,
which need not be a string. -/
structure ScopeItem where
  kind : Option String
  key : Value
  value : Value

/-- The `Scope` class: closure flag, pending flow statement, and the
definition stack in push order. -/
structure Scope where
  closure : Bool
  flowStatement : Option FlowStatement
  stack : List ScopeItem

/-- `Scope.get`: search the definition stack newest-first for an item
whose key is strictly equal to the looked-up name. -/
def Scope.get (sc : Scope) (key : String) : Option ScopeItem :=
  sc.stack.reverse.find? (fun it => strictEq it.key (.str key))

/-- `Scope.add`: push one item. -/
def Scope.add (sc : Scope) (it : ScopeItem) : Scope :=
  { sc with stack := sc.stack ++ [it] }

/-- Replace the newest item matching the key (the one `Scope.get` finds),
leaving the rest of the stack unchanged. -/
def replaceNewest (key : String) (nv : ScopeItem → ScopeItem) :
    List ScopeItem → List ScopeItem
  | [] => []
  | it :: rest =>
    if strictEq it.key (.str key) then nv it :: rest
    else it :: replaceNewest key nv rest

/-- In-place update of the newest binding for `key` in a scope. -/
def Scope.updateNewest (sc : Scope) (key : String)
    (nv : ScopeItem → ScopeItem) : Scope :=
  { sc with stack := (replaceNewest key nv sc.stack.reverse).reverse }

/-- The immutability error thrown by `Scope.set` (and the third revision's
inline check): `new TypeError("Assignment to constant variable")`. -/
def constAssignErr : Value :=
  .jsError ("TypeError") ("Assignment to constant variable")

/-- `Scope.set`: with a non-empty remaining key path, descend through the
bound value and update the nested component (no `const` check); with an
empty path, reject `const` bindings and otherwise overwrite the binding's
value. A missing binding is silently ignored (`if (item)` guard). -/
def Scope.set (sc : Scope) (key : String) (newVal : Value)
    (subKey : List String) : Except Value Scope :=
  match sc.get key with
  | none => .ok sc
  | some item =>
    if subKey.isEmpty then
      if item.kind == some ("const") then .error constAssignErr
      else .ok (sc.updateNewest key (fun it => { it with value := newVal }))
    else
      .ok (sc.updateNewest key
        (fun it => { it with value := setPath it.value subKey newVal }))

/-- `Scope.setFlowStatement`. -/
def Scope.setFlow (sc : Scope) (type : String) (v : Value) : Scope :=
  { sc with flowStatement := some ⟨type, v⟩ }

/-- A fresh scope as the `Scope` constructor builds it from an initial
bindings object: every entry becomes a `var`-kind item, in order. -/
def Scope.ofInit (closure : Bool) (init : Env) : Scope :=
  ⟨closure, none, init.map (fun p => ⟨some ("var"), .str p.1, p.2⟩)⟩

/-- Interpreter state: the scope stack (ids, innermost last), the heap of
scope objects (ids never reused, objects never deallocated), the next
fresh id, and the module-level `createVariableKind` variable. -/
structure St where
  stack : List Nat
  heap : List (Nat × Scope)
  nextId : Nat
  createVariableKind : Option String

/-- The empty interpreter state, before `customerEval` seeds the global
scope. -/
def emptySt : St := ⟨[], [], 0, none⟩

/-- Dereference a scope id on the heap. -/
def heapGet (st : St) (id : Nat) : Option Scope :=
  (st.heap.find? (fun p => p.1 == id)).map (fun p => p.2)

/-- Overwrite a scope object on the heap. -/
def heapSet (h : List (Nat × Scope)) (id : Nat) (sc : Scope) :
    List (Nat × Scope) :=
  h.map (fun p => if p.1 == id then (id, sc) else p)

/-- `scopeStack.findScope`: `this.stack.find((scope) => scope.get(key))`.
`Array.prototype.find` scans from index 0, i.e. from the OUTERMOST scope
inward. -/
def findScopeId (st : St) (key : String) : Option Nat :=
  st.stack.find? (fun id =>
    match heapGet st id with
    | some sc => (sc.get key).isSome
    | none => false)

/-- `env[name]`: property lookup in the initial bindings table. -/
def envLookup (e : Env) (name : String) : Option Value :=
  (e.find? (fun p => p.1 == name)).map (fun p => p.2)

/-- The evaluation monad: state (scope stack plus heap) with one exception
channel carrying JS values, and `none` for fuel exhaustion. Exceptions
preserve the state at the throw point, as host JS exceptions do. -/
abbrev M (α : Type) := St → Option (Except Value α × St)

def M.pure {α : Type} (a : α) : M α := fun st => some (Except.ok a, st)

def M.bind {α β : Type} (x : M α) (g : α → M β) : M β := fun st =>
  match x st with
  | none => none
  | some (Except.error e, st2) => some (Except.error e, st2)
  | some (Except.ok a, st2) => g a st2

instance : Monad M where
  pure := M.pure
  bind := M.bind

/-- Throw a JS value as a host exception. -/
def throwV {α : Type} (v : Value) : M α := fun st =>
  some (Except.error v, st)

/-- Host `try`/`catch`: run the handler on the exception value, from the
state at the throw point. -/
def tryCatchM {α : Type} (x : M α) (h : Value → M α) : M α := fun st =>
  match x st with
  | some (Except.error e, st2) => h e st2
  | other => other

/-- Out of fuel: the modelled computation did not finish. -/
def outOfFuel {α : Type} : M α := fun _ => none

def getSt : M St := fun st => some (Except.ok st, st)

/-- Lift a pure `Except` computation (e.g. `getKeyList`) into `M`. -/
def liftExcept {α : Type} : Except Value α → M α
  | .ok a => M.pure a
  | .error e => throwV e

/-- The TypeError raised when the source dereferences `undefined` (e.g.
`scope.get` with `findScope` having returned undefined, destructuring
`topScope()` on an empty stack, member access on undefined). -/
def undefTypeErr : Value :=
  .jsError ("TypeError") ("Cannot read properties of undefined")

/-- The TypeError raised when the source dereferences `null` (e.g.
`evaluate(null, env)` reading `node.type`, member access on null). -/
def nullTypeErr : Value :=
  .jsError ("TypeError") ("Cannot read properties of null")

/-- The structural error of the dispatch default:
``new Error(`Unsupported Syntax ${node.type} at Location ${node.start}:${node.end}`)``. -/
def unsupportedSyntaxErr (t : String) (s e : Nat) : Value :=
  .jsError ("Error")
    (("Unsupported Syntax ") ++ t ++ (" at Location ") ++ toString s
      ++ (":") ++ toString e)

/-- The error of `evaluateBinaryExpression` / `evaluateLogicalExpression` /
`evaluateUpdateExpression` on an unknown operator. -/
def unsupportedOpErr (op : String) : Value :=
  .jsError ("Error") (("Unsupported Operator ") ++ op)

/-- `scopeStack.addScope`: create a scope object, push its id, return it. -/
def addScopeM (closure : Bool) (init : Env) : M Nat := fun st =>
  some (Except.ok st.nextId,
    { st with
      stack := st.stack ++ [st.nextId]
      heap := st.heap ++ [(st.nextId, Scope.ofInit closure init)]
      nextId := st.nextId + 1 })

/-- `scopeStack.pop()`: drop the LAST id on the stack, whichever scope that
currently is; the object stays on the heap (references keep it alive). -/
def popScopeM : M Unit := fun st =>
  some (Except.ok (), { st with stack := st.stack.dropLast })

/-- `scopeStack.topScope()`: the last id, if any. -/
def topScopeIdM : M (Option Nat) := fun st =>
  some (Except.ok st.stack.getLast?, st)

/-- `topScope()` followed by a field access, which throws a TypeError on an
empty stack (dereferencing undefined). -/
def topScopeStrictM : M Nat := do
  match (← topScopeIdM) with
  | some id => M.pure id
  | none => throwV undefTypeErr

/-- Read a scope object through its reference. -/
def scopeOfM (id : Nat) : M Scope := fun st =>
  match heapGet st id with
  | some sc => some (Except.ok sc, st)
  | none => some (Except.error undefTypeErr, st)

/-- Write a scope object through its reference. -/
def writeScopeM (id : Nat) (sc : Scope) : M Unit := fun st =>
  some (Except.ok (), { st with heap := heapSet st.heap id sc })

/-- Set the module-level `createVariableKind` variable. -/
def setKindM (k : Option String) : M Unit := fun st =>
  some (Except.ok (), { st with createVariableKind := k })

/-- `scope.set(...)` through a reference, rethrowing its TypeError. -/
def scopeSetM (id : Nat) (key : String) (newVal : Value)
    (subKey : List String) : M Unit := do
  let sc ← scopeOfM id
  match sc.set key newVal subKey with
  | .error e => throwV e
  | .ok sc2 => writeScopeM id sc2

/-- Is the value a function (the `typeof x === "function"` checks)? -/
def isClosureValue : Value → Bool
  | .closure _ _ _ => true
  | _ => false

/-- Is the node a `SwitchStatement` (the check in
`evaluateBlockStatement`)? -/
def isSwitchNode : Node → Bool
  | .switchStmt _ _ => true
  | _ => false

/-- The type of the recursive evaluator each handler receives for its
children: `evaluate` at one unit less fuel. The second argument is the
`env` parameter, which several call sites of the source omit (then it is
`undefined`, modelled as `none`). -/
abbrev EvalF := Node → Option Env → M Value

/-- `evaluateIdentifier`: resolve through `scopeStack.findScope` (which
scans outermost-first); if found, `scope.get(name)?.value`; otherwise
`env[name] || name` (a TypeError when `env` itself is undefined). -/
def evaluateIdentifier (name : String) (env : Option Env) : M Value :=
  fun st =>
  match findScopeId st name with
  | some id =>
    some (Except.ok
      (match (heapGet st id).bind (fun sc => sc.get name) with
        | some item => item.value
        | none => Value.undefined), st)
  | none =>
    match env with
    | none => some (Except.error undefTypeErr, st)
    | some e =>
      match envLookup e name with
      | some v =>
        some (Except.ok (if truthy v then v else Value.str name), st)
      | none => some (Except.ok (Value.str name), st)

/-- `evaluateBinaryExpression`: evaluate both operands, then apply the
operator; unknown operators throw. -/
def evaluateBinaryExpression (ev : EvalF) (env : Option Env) (op : String)
    (left right : Node) : M Value := do
  let leftValue ← ev left env
  let rightValue ← ev right env
  match op with
  | "+" => M.pure (jsAdd leftValue rightValue)
  | "-" => M.pure (jsSub leftValue rightValue)
  | "*" => M.pure (jsMul leftValue rightValue)
  | "/" => M.pure (jsDiv leftValue rightValue)
  | "<=" => M.pure (jsLe leftValue rightValue)
  | ">" => M.pure (jsGt leftValue rightValue)
  | "<" => M.pure (jsLt leftValue rightValue)
  | _ => throwV (unsupportedOpErr op)

/-- `evaluateLogicalExpression`: short-circuiting `||` and `&&`. -/
def evaluateLogicalExpression (ev : EvalF) (env : Option Env) (op : String)
    (left right : Node) : M Value := do
  let leftValue ← ev left env
  match op with
  | "||" => if truthy leftValue then M.pure leftValue else ev right env
  | "&&" => if truthy leftValue then ev right env else M.pure leftValue
  | _ => throwV (unsupportedOpErr op)

/-- `evaluateAssignmentExpression`: decompose the target into a key path,
find the owning scope via `findScope` (a TypeError if none), read the old
value, then apply `=` / `+=` / `*=` through `Scope.set`. Returns
undefined. -/
def evaluateAssignmentExpression (ev : EvalF) (env : Option Env)
    (op : String) (left right : Node) : M Value := do
  let keyList0 ← liftExcept (getKeyList left)
  match keyList0 with
  | [] => throwV undefTypeErr
  | key :: keyList => do
    let st ← getSt
    match findScopeId st key with
    | none => throwV undefTypeErr
    | some sid => do
      let sc ← scopeOfM sid
      match sc.get key with
      | none => throwV undefTypeErr
      | some item => do
        let oldVal := item.value
        match op with
        | "=" => do
          let rv ← ev right env
          scopeSetM sid key rv keyList
          M.pure Value.undefined
        | "+=" => do
          let rv ← ev right env
          scopeSetM sid key (jsAdd oldVal rv) keyList
          M.pure Value.undefined
        | "*=" => do
          let rv ← ev right env
          scopeSetM sid key (jsMul oldVal rv) keyList
          M.pure Value.undefined
        | _ =>
          throwV (.jsError ("Error")
            (("Unsupported  evaluate AssignmentExpression Operator ") ++ op))

/-- `evaluateUpdateExpression`: `++` rewrites the binding to
`oldVal + 1`; other operators throw. Returns undefined. -/
def evaluateUpdateExpression (op : String) (argument : Node) : M Value := do
  let keyList0 ← liftExcept (getKeyList argument)
  match keyList0 with
  | [] => throwV undefTypeErr
  | key :: keyList => do
    let st ← getSt
    match findScopeId st key with
    | none => throwV undefTypeErr
    | some sid => do
      let sc ← scopeOfM sid
      match sc.get key with
      | none => throwV undefTypeErr
      | some item =>
        match op with
        | "++" => do
          scopeSetM sid key (jsAdd item.value (Value.num 1)) keyList
          M.pure Value.undefined
        | _ => throwV (unsupportedOpErr op)

/-- One guarded section of `evaluateTryStatement` (`try` block, `catch`
handler, or `finally`): add a scope, evaluate, pop whatever is now on
top, then read the created scope object's `flowStatement`; a `return`
flow becomes an early host return of its value (`some`), anything else
falls through (`none`). -/
def trySection (ev : EvalF) (env : Option Env) (n : Node)
    (bindings : List ScopeItem) : M (Option Value) := do
  let sid ← addScopeM false []
  let sc0 ← scopeOfM sid
  let _ ← writeScopeM sid { sc0 with stack := sc0.stack ++ bindings }
  let _ ← ev n env
  popScopeM
  let sc ← scopeOfM sid
  match sc.flowStatement with
  | some fs =>
    if fs.type == ("return") then M.pure (some fs.value) else M.pure none
  | none => M.pure none

/-- `evaluateTryStatement`: host `try`/`catch`/`finally` with early
returns in each section. The `catch` arm binds the handler's parameter as
a `var`, and swallows the exception even when no handler is present; a
`return` flow from `finally` overrides every pending outcome; a pending
exception is rethrown after `finally`. -/
def evaluateTryStatement (ev : EvalF) (env : Option Env)
    (blk handler finalizer : Option Node) : M Value := do
  let pending ← tryCatchM
    (tryCatchM
      (do
        let r ← (match blk with
          | none => M.pure (none : Option Value)
          | some b => trySection ev env b [])
        M.pure (Except.ok r))
      (fun error => do
        let r ← (match handler with
          | none => M.pure (none : Option Value)
          | some h =>
            match h with
            | .catchClause param _ =>
              trySection ev env h [⟨some ("var"), .str param, error⟩]
            | _ => throwV undefTypeErr)
        M.pure (Except.ok r)))
    (fun e2 => M.pure (Except.error e2))
  let fin ← (match finalizer with
    | none => M.pure (none : Option Value)
    | some f => trySection ev env f [])
  match fin with
  | some v => M.pure v
  | none =>
    match pending with
    | Except.error e => throwV e
    | Except.ok (some v) => M.pure v
    | Except.ok none => M.pure Value.undefined

/-- `evaluateThrowStatement`. -/
def evaluateThrowStatement (ev : EvalF) (env : Option Env)
    (argument : Node) : M Value := do
  let v ← ev argument env
  throwV v

/-- `evaluateCatchClause`: evaluate the body; return its result if truthy,
else undefined. -/
def evaluateCatchClause (ev : EvalF) (env : Option Env) (body : Node) :
    M Value := do
  let returnRes ← ev body env
  if truthy returnRes then M.pure returnRes else M.pure Value.undefined

/-- The parameter items added by a function/arrow invocation: positional,
`var`-kind, missing arguments bound to undefined, extras ignored. -/
def paramItems : List String → List Value → List ScopeItem
  | [], _ => []
  | p :: ps, [] => ⟨some ("var"), .str p, .undefined⟩ :: paramItems ps []
  | p :: ps, a :: as => ⟨some ("var"), .str p, a⟩ :: paramItems ps as

/-- The host function built by `evaluateArrowFunctionExpression` /
`evaluateFunctionExpression`, invoked through `func.call(applyObj, ...)`:
add a scope, bind the parameters, evaluate the body in the CAPTURED env,
and pop the last scope unless the created scope object's closure flag was
set meanwhile. The receiver is accepted (as `Function.prototype.call`
does) but unused: function bodies cannot reference `this`
(`ThisExpression` has no handler). -/
def callFunction (ev : EvalF) (func _receiver : Value) (args : List Value) :
    M Value :=
  match func with
  | .closure params body cenv => do
    let sid ← addScopeM false []
    let sc0 ← scopeOfM sid
    let _ ← writeScopeM sid
      { sc0 with stack := sc0.stack ++ paramItems params args }
    let returnVal ← ev body cenv
    let sc ← scopeOfM sid
    if sc.closure then M.pure returnVal
    else do
      popScopeM
      M.pure returnVal
  | _ => throwV (.jsError ("TypeError") ("func.call is not a function"))

/-- Evaluate a list of argument/element nodes in order
(`node.arguments.map((arg) => evaluate(arg, env))`). -/
def evalArgs (ev : EvalF) (env : Option Env) : List Node → M (List Value)
  | [] => M.pure []
  | n :: rest => do
    let v ← ev n env
    let vs ← evalArgs ev env rest
    M.pure (v :: vs)

/-- `evaluateCallExpression`: when the callee is a member expression, the
object operand is evaluated FIRST and WITHOUT an env argument to obtain
the receiver, then the callee is evaluated (which evaluates the object
again), then the arguments; after the call, if the result is not a
function and the top scope has its closure flag set, the top scope is
popped. -/
def evaluateCallExpression (ev : EvalF) (env : Option Env) (callee : Node)
    (argNodes : List Node) : M Value := do
  let applyObj ← (match callee with
    | .memberExpr obj _ => ev obj none
    | _ => M.pure Value.null)
  let func ← ev callee env
  let args ← evalArgs ev env argNodes
  let callRes ← callFunction ev func applyObj args
  let top ← topScopeIdM
  match top with
  | some tid => do
    let sc ← scopeOfM tid
    if !isClosureValue callRes && sc.closure then do
      popScopeM
      M.pure callRes
    else M.pure callRes
  | none => M.pure callRes

/-- `evaluateFunctionExpression`: build the closure value, register it in
the top scope under the function's name with kind `function`, and return
it. An anonymous function expression dereferences `id` of null. -/
def evaluateFunctionExpression (env : Option Env) (id : Option Node)
    (params : List String) (body : Node) : M Value := do
  let idNode ← (match id with
    | some n => M.pure n
    | none => throwV nullTypeErr)
  let ks ← liftExcept (getKeyList idNode)
  let func := Value.closure params body env
  let tid ← topScopeStrictM
  let sc ← scopeOfM tid
  let _ ← writeScopeM tid (sc.add
    ⟨some ("function"),
      (match ks.getLast? with
        | some s => Value.str s
        | none => Value.undefined), func⟩)
  M.pure func

/-- `evaluateArrowFunctionExpression`: the closure captures the `env`
parameter in effect at the definition site. -/
def evaluateArrowFunctionExpression (params : List String) (body : Node)
    (env : Option Env) : M Value :=
  M.pure (Value.closure params body env)

/-- `evaluateConditionalExpression` (also the handler of `IfStatement`):
`evaluate(test) ? evaluate(consequent) : evaluate(alternate)`. An `if`
without `else` evaluates `null` (a TypeError reading `node.type`). -/
def evaluateConditionalExpression (ev : EvalF) (env : Option Env)
    (test : Node) (consequent alternate : Option Node) : M Value := do
  let t ← ev test env
  if truthy t then
    match consequent with
    | some n => ev n env
    | none => throwV nullTypeErr
  else
    match alternate with
    | some n => ev n env
    | none => throwV nullTypeErr

/-- `evaluateReturnStatement`: evaluate the argument, set the top scope's
closure flag when the value is a function, record a `return` flow
statement on the top scope, and return the value. -/
def evaluateReturnStatement (ev : EvalF) (env : Option Env)
    (argument : Node) : M Value := do
  let returnVal ← ev argument env
  let tid ← topScopeStrictM
  let sc ← scopeOfM tid
  let sc := if isClosureValue returnVal then { sc with closure := true }
    else sc
  let _ ← writeScopeM tid (sc.setFlow ("return") returnVal)
  M.pure returnVal

/-- `evaluateContinueStatement`: record a `continue` flow statement on the
top scope. -/
def evaluateContinueStatement : M Value := do
  let tid ← topScopeStrictM
  let sc ← scopeOfM tid
  let _ ← writeScopeM tid (sc.setFlow ("continue") Value.undefined)
  M.pure Value.undefined

/-- `evaluateMemberExpression`:
`evaluate(object, env)[evaluate(property, env)]`; indexing undefined or
null throws. -/
def evaluateMemberExpression (ev : EvalF) (env : Option Env)
    (object property : Node) : M Value := do
  let o ← ev object env
  let p ← ev property env
  match o with
  | .undefined => throwV undefTypeErr
  | .null => throwV nullTypeErr
  | _ => M.pure (getProp o (jsToString p))

/-- The iteration of `evaluateWhileStatement`: test, body, then inspect
the TOP scope's flow statement: `continue` loops, `return` yields the
carried value WITHOUT popping the loop scope, `break` pops and exits; no
flow statement loops. Normal exit (test falsy) pops. The flow statement
is never cleared. -/
def whileGo (ev : EvalF) (env : Option Env) :
    Nat → Node → Node → M Value
  | 0, _, _ => outOfFuel
  | g + 1, test, body => do
    let t ← ev test env
    if truthy t then do
      let _ ← ev body env
      let tid ← topScopeStrictM
      let sc ← scopeOfM tid
      match sc.flowStatement with
      | some fs =>
        if fs.type == ("continue") then whileGo ev env g test body
        else if fs.type == ("return") then M.pure fs.value
        else if fs.type == ("break") then do
          popScopeM
          M.pure Value.undefined
        else whileGo ev env g test body
      | none => whileGo ev env g test body
    else do
      popScopeM
      M.pure Value.undefined

/-- `evaluateWhileStatement`: push one scope for the whole loop, then
iterate. -/
def evaluateWhileStatement (ev : EvalF) (env : Option Env) (fuel : Nat)
    (test body : Node) : M Value := do
  let _ ← addScopeM false []
  whileGo ev env fuel test body

/-- The iteration of `evaluateForStatement`: test, body, update — with NO
inspection of flow statements at all. Normal exit pops. -/
def forGo (ev : EvalF) (env : Option Env) :
    Nat → Node → Node → Node → M Value
  | 0, _, _, _ => outOfFuel
  | g + 1, test, update, body => do
    let t ← ev test env
    if truthy t then do
      let _ ← ev body env
      let _ ← ev update env
      forGo ev env g test update body
    else do
      popScopeM
      M.pure Value.undefined

/-- `evaluateForStatement`: push one scope for the whole loop, run the
init, then iterate. -/
def evaluateForStatement (ev : EvalF) (env : Option Env) (fuel : Nat)
    (init test update body : Node) : M Value := do
  let _ ← addScopeM false []
  let _ ← ev init env
  forGo ev env fuel test update body

/-- `evaluateObjectExpression`: fold the properties into an object value
in order, later duplicates overwriting. -/
def objGo (ev : EvalF) (env : Option Env) :
    List (String × Node) → Value → M Value
  | [], acc => M.pure acc
  | (k, vn) :: rest, acc => do
    let v ← ev vn env
    objGo ev env rest (setProp acc k v)

/-- `evaluateObjectExpression`. -/
def evaluateObjectExpression (ev : EvalF) (env : Option Env)
    (props : List (String × Node)) : M Value :=
  objGo ev env props (Value.obj [])

/-- `evaluateArrayExpression`. -/
def evaluateArrayExpression (ev : EvalF) (env : Option Env)
    (elements : List Node) : M Value := do
  let els ← evalArgs ev env elements
  M.pure (Value.arr els)

/-- The shared loop of `evaluateProgram` and
`evaluateSequenceExpression`: evaluate in order, keep the last result
(undefined when empty), with no flow inspection. -/
def evalLastGo (ev : EvalF) (env : Option Env) :
    List Node → Value → M Value
  | [], res => M.pure res
  | n :: rest, _ => do
    let r ← ev n env
    evalLastGo ev env rest r

/-- `evaluateProgram`. -/
def evaluateProgram (ev : EvalF) (env : Option Env) (body : List Node) :
    M Value :=
  evalLastGo ev env body Value.undefined

/-- `evaluateSequenceExpression`. -/
def evaluateSequenceExpression (ev : EvalF) (env : Option Env)
    (exprs : List Node) : M Value :=
  evalLastGo ev env exprs Value.undefined

/-- `evaluateExpressionStatement` (final revision: plain pass-through). -/
def evaluateExpressionStatement (ev : EvalF) (env : Option Env)
    (expression : Node) : M Value :=
  ev expression env

/-- The statement loop of `evaluateBlockStatement` (final revision: NO
scope is pushed for a block). After each statement the TOP scope's flow
statement is inspected: a `return` flow makes the block return the
carried value; a `continue` flow ends the block early only when the
statement was a `switch`, and otherwise just moves on to the next
statement; `break` flows are not inspected. -/
def blockGo (ev : EvalF) (env : Option Env) : List Node → Value → M Value
  | [], returnVal => M.pure returnVal
  | item :: rest, _ => do
    let returnVal ← ev item env
    let tid ← topScopeStrictM
    let sc ← scopeOfM tid
    match sc.flowStatement with
    | some fs =>
      if fs.type == ("return") then M.pure fs.value
      else if fs.type == ("continue") then
        (if isSwitchNode item then M.pure returnVal
          else blockGo ev env rest returnVal)
      else blockGo ev env rest returnVal
    | none => blockGo ev env rest returnVal

/-- `evaluateBlockStatement`. -/
def evaluateBlockStatement (ev : EvalF) (env : Option Env)
    (body : List Node) : M Value :=
  blockGo ev env body Value.undefined

/-- The declarator loop of `evaluateVariableDeclaration`: set the
module-level `createVariableKind` around each declarator. -/
def declsGo (ev : EvalF) (env : Option Env) (kind : String) :
    List Node → M Value
  | [] => M.pure Value.undefined
  | d :: rest => do
    let _ ← setKindM (some kind)
    let _ ← ev d env
    let _ ← setKindM none
    declsGo ev env kind rest

/-- `evaluateVariableDeclaration`. -/
def evaluateVariableDeclaration (ev : EvalF) (env : Option Env)
    (kind : String) (decls : List Node) : M Value :=
  declsGo ev env kind decls

/-- `evaluateVariableDeclarator`: capture the top scope reference, read
`createVariableKind`, compute the key by EVALUATING the id node (an
unresolved identifier evaluates to its own name string; a shadowed one to
the outer binding's value!), evaluate the initializer (or undefined), and
add the item to the captured scope. -/
def evaluateVariableDeclarator (ev : EvalF) (env : Option Env) (id : Node)
    (init : Option Node) : M Value := do
  let top ← topScopeIdM
  let st ← getSt
  let kind := st.createVariableKind
  let key ← ev id env
  let value ← (match init with
    | some i => ev i env
    | none => M.pure Value.undefined)
  match top with
  | none => throwV undefTypeErr
  | some tid => do
    let sc ← scopeOfM tid
    let _ ← writeScopeM tid (sc.add ⟨kind, key, value⟩)
    M.pure Value.undefined

/-- The statement loop inside one matching `case`: each statement is
evaluated WITHOUT an env argument; then the top scope's flow statement is
inspected: `return` aborts the whole switch with the carried value
(`some`), `continue` moves to the next statement, `break` ends this
case's statements (`none`, after which the OUTER case scan continues). -/
def switchConsequentGo (ev : EvalF) : List Node → M (Option Value)
  | [] => M.pure none
  | stmt :: rest => do
    let _ ← ev stmt none
    let tid ← topScopeStrictM
    let sc ← scopeOfM tid
    match sc.flowStatement with
    | some fs =>
      if fs.type == ("return") then M.pure (some fs.value)
      else if fs.type == ("continue") then switchConsequentGo ev rest
      else if fs.type == ("break") then M.pure none
      else switchConsequentGo ev rest
    | none => switchConsequentGo ev rest

/-- The case scan of `evaluateSwitchStatement`: EVERY case's test is
evaluated (without env) and compared with `===` against the discriminant;
only matching cases run their statements — there is no fallthrough into a
non-matching case. -/
def switchCasesGo (ev : EvalF) (d : Value) :
    List (Node × List Node) → M Value
  | [] => M.pure Value.undefined
  | (test, consequent) :: rest => do
    let t ← ev test none
    if strictEq t d then do
      let r ← switchConsequentGo ev consequent
      match r with
      | some v => M.pure v
      | none => switchCasesGo ev d rest
    else switchCasesGo ev d rest

/-- `evaluateSwitchStatement`: evaluate the discriminant once, then scan
the cases. -/
def evaluateSwitchStatement (ev : EvalF) (env : Option Env)
    (discriminant : Node) (cases : List (Node × List Node)) : M Value := do
  let d ← ev discriminant env
  switchCasesGo ev d cases

/-- `evaluate`: the dispatch on `node.type` of the final revision of
`src/homework/3/eval.js`, with explicit fuel. Node kinds without a
handler (e.g. `BreakStatement`, `UnaryExpression`, `ThisExpression`,
`FunctionDeclaration`) throw the structural `Unsupported Syntax` error
carrying the node's type and source offsets. -/
def evaluate : Nat → Node → Option Env → M Value
  | 0, _, _ => outOfFuel
  | f + 1, node, env =>
    match node with
    | .program body => evaluateProgram (evaluate f) env body
    | .binary op l r => evaluateBinaryExpression (evaluate f) env op l r
    | .ident name => evaluateIdentifier name env
    | .lit v => M.pure v
    | .logical op l r => evaluateLogicalExpression (evaluate f) env op l r
    | .call callee args => evaluateCallExpression (evaluate f) env callee args
    | .arrowFn params body => evaluateArrowFunctionExpression params body env
    | .condExpr t c a =>
      evaluateConditionalExpression (evaluate f) env t (some c) (some a)
    | .ifStmt t c a =>
      evaluateConditionalExpression (evaluate f) env t (some c) a
    | .objExpr props => evaluateObjectExpression (evaluate f) env props
    | .arrExpr els => evaluateArrayExpression (evaluate f) env els
    | .seqExpr exprs => evaluateSequenceExpression (evaluate f) env exprs
    | .exprStmt e => evaluateExpressionStatement (evaluate f) env e
    | .assign op l r => evaluateAssignmentExpression (evaluate f) env op l r
    | .block body => evaluateBlockStatement (evaluate f) env body
    | .varDecl kind decls =>
      evaluateVariableDeclaration (evaluate f) env kind decls
    | .varDeclarator id init =>
      evaluateVariableDeclarator (evaluate f) env id init
    | .ret arg => evaluateReturnStatement (evaluate f) env arg
    | .forStmt i t u b => evaluateForStatement (evaluate f) env f i t u b
    | .whileStmt t b => evaluateWhileStatement (evaluate f) env f t b
    | .updateExpr op arg => evaluateUpdateExpression op arg
    | .tryStmt b h fin => evaluateTryStatement (evaluate f) env b h fin
    | .throwStmt arg => evaluateThrowStatement (evaluate f) env arg
    | .catchClause _ body => evaluateCatchClause (evaluate f) env body
    | .funcExpr id params body =>
      evaluateFunctionExpression env id params body
    | .switchStmt d cs => evaluateSwitchStatement (evaluate f) env d cs
    | .continueStmt => evaluateContinueStatement
    | .memberExpr o p => evaluateMemberExpression (evaluate f) env o p
    | .unsupported t s e => throwV (unsupportedSyntaxErr t s e)

/-- `customerEval` (minus the external parser): seed the global scope from
the initial bindings table, evaluate the program, and report the result
value or the escaped thrown value; the `finally { scopeStack.pop() }`
only mutates the discarded final state. `none` means the fuel ran out. -/
def runProgram (fuel : Nat) (prog : Node) (env : Env) :
    Option (Except Value Value) :=
  match (M.bind (addScopeM false env)
      (fun _ => evaluate fuel prog (some env))) emptySt with
  | none => none
  | some (r, _) => some r

/-! ## Decidable view of results

Evaluation results are compared through a flat projection with decidable
equality, so closed runs can be settled by kernel reduction; bridging
lemmas transport the computed fact back to a genuine equality on
`runProgram`'s result. Every expected result of the verified programs is
a primitive or an error object, on which `flatten` is injective. -/

inductive FlatV where
  | vUndefined : FlatV
  | vNull : FlatV
  | vBool : Bool → FlatV
  | vNum : Int → FlatV
  | vStr : String → FlatV
  | vErr : String → String → FlatV
  | vOther : FlatV
  deriving DecidableEq

instance : DecidableEq (Except FlatV FlatV) := fun a b =>
  match a, b with
  | .ok x, .ok y =>
    if h : x = y then isTrue (by rw [h])
    else isFalse (by intro c; cases c; exact h rfl)
  | .error x, .error y =>
    if h : x = y then isTrue (by rw [h])
    else isFalse (by intro c; cases c; exact h rfl)
  | .ok _, .error _ => isFalse (by intro c; cases c)
  | .error _, .ok _ => isFalse (by intro c; cases c)

/-- Project a value onto its flat observation; composite values (objects,
arrays, closures) collapse to `vOther`. -/
def flatten : Value → FlatV
  | .undefined => .vUndefined
  | .null => .vNull
  | .bool b => .vBool b
  | .num n => .vNum n
  | .str s => .vStr s
  | .jsError a b => .vErr a b
  | _ => .vOther

/-- Project an evaluation outcome onto flat observations. -/
def flatRes : Option (Except Value Value) → Option (Except FlatV FlatV)
  | none => none
  | some (Except.ok v) => some (Except.ok (flatten v))
  | some (Except.error v) => some (Except.error (flatten v))

theorem flatten_num (v : Value) (n : Int) :
    flatten v = FlatV.vNum n ↔ v = Value.num n := by
  cases v <;> simp [flatten]

theorem flatten_err (v : Value) (a b : String) :
    flatten v = FlatV.vErr a b ↔ v = Value.jsError a b := by
  cases v <;> simp [flatten]

theorem flatRes_ok_num (r : Option (Except Value Value)) (n : Int) :
    flatRes r = some (Except.ok (FlatV.vNum n))
      ↔ r = some (Except.ok (Value.num n)) := by
  match r with
  | none => simp [flatRes]
  | some (Except.ok v) => simp [flatRes, flatten_num]
  | some (Except.error v) => simp [flatRes]

theorem flatRes_err_num (r : Option (Except Value Value)) (n : Int) :
    flatRes r = some (Except.error (FlatV.vNum n))
      ↔ r = some (Except.error (Value.num n)) := by
  match r with
  | none => simp [flatRes]
  | some (Except.ok v) => simp [flatRes]
  | some (Except.error v) => simp [flatRes, flatten_num]

theorem flatRes_ok_err (r : Option (Except Value Value)) (a b : String) :
    flatRes r = some (Except.ok (FlatV.vErr a b))
      ↔ r = some (Except.ok (Value.jsError a b)) := by
  match r with
  | none => simp [flatRes]
  | some (Except.ok v) => simp [flatRes, flatten_err]
  | some (Except.error v) => simp [flatRes]

theorem flatRes_err_err (r : Option (Except Value Value)) (a b : String) :
    flatRes r = some (Except.error (FlatV.vErr a b))
      ↔ r = some (Except.error (Value.jsError a b)) := by
  match r with
  | none => simp [flatRes]
  | some (Except.ok v) => simp [flatRes]
  | some (Except.error v) => simp [flatRes, flatten_err]

/-! ## Concrete programs used by the claims -/

/-- Shorthand for an integer literal node. -/
def litN (n : Int) : Node := Node.lit (Value.num n)

/-- The body of `inc` in the C1 program: `{ n = n + 1; return n; }`. -/
def incBody : Node := Node.block
  [ .exprStmt (.assign ("=") (.ident ("n"))
      (.binary ("+") (.ident ("n")) (litN 1))),
    .ret (.ident ("n")) ]

/-- C1 (§8): `(() => { let n = 0; const inc = () => { n = n + 1; return n; }; inc(); return inc(); })()`. -/
def progC1 : Node := Node.program
  [ .exprStmt (.call (.arrowFn []
      (.block
        [ .varDecl ("let") [ .varDeclarator (.ident ("n")) (some (litN 0)) ],
          .varDecl ("const")
            [ .varDeclarator (.ident ("inc")) (some (.arrowFn [] incBody)) ],
          .exprStmt (.call (.ident ("inc")) []),
          .ret (.call (.ident ("inc")) []) ])) []) ]

/-- C2 (§8): `(() => { try { return 1 } finally { return 2 } })()`. -/
def progC2ret : Node := Node.program
  [ .exprStmt (.call (.arrowFn []
      (.block
        [ .tryStmt (some (.block [ .ret (litN 1) ])) none
            (some (.block [ .ret (litN 2) ])) ])) []) ]

/-- C2 counterexample:
`(() => { let i = 0; let j = 0; while (i < 1) { i = i + 1; try { } finally { continue } j = 5; } return j; })()`.
Under the claim the `Continue` produced by `finally` overrides the try's
pending Normal outcome, so `j = 5` (after the try, inside the loop body)
is skipped and the result is 0. -/
def progC2continue : Node := Node.program
  [ .exprStmt (.call (.arrowFn []
      (.block
        [ .varDecl ("let") [ .varDeclarator (.ident ("i")) (some (litN 0)) ],
          .varDecl ("let") [ .varDeclarator (.ident ("j")) (some (litN 0)) ],
          .whileStmt (.binary ("<") (.ident ("i")) (litN 1))
            (.block
              [ .exprStmt (.assign ("=") (.ident ("i"))
                  (.binary ("+") (.ident ("i")) (litN 1))),
                .tryStmt (some (.block [])) none
                  (some (.block [ .continueStmt ])),
                .exprStmt (.assign ("=") (.ident ("j")) (litN 5)) ]),
          .ret (.ident ("j")) ])) []) ]

/-- C2: `(() => { try { return 1 } finally { throw 2 } })()` — a thrown
condition from `finally` does override the pending return. -/
def progC2throw : Node := Node.program
  [ .exprStmt (.call (.arrowFn []
      (.block
        [ .tryStmt (some (.block [ .ret (litN 1) ])) none
            (some (.block [ .throwStmt (litN 2) ])) ])) []) ]

/-- C3 failing input: `let x = 1; (() => { let x = 2; return x; })()`.
The claim (and the spec's shadowing invariant) demand 2. -/
def progC3 : Node := Node.program
  [ .varDecl ("let") [ .varDeclarator (.ident ("x")) (some (litN 1)) ],
    .exprStmt (.call (.arrowFn []
      (.block
        [ .varDecl ("let") [ .varDeclarator (.ident ("x")) (some (litN 2)) ],
          .ret (.ident ("x")) ])) []) ]

/-- A two-frame scope stack, outer scope (id 7) binding x to 1 and inner
scope (id 8) binding x to 2, for stating where lookup resolves. -/
def stTwoScopes : St :=
  ⟨[7, 8],
    [(7, ⟨false, none, [⟨some ("let"), .str ("x"), .num 1⟩]⟩),
     (8, ⟨false, none, [⟨some ("let"), .str ("x"), .num 2⟩]⟩)],
    9, none⟩

/-- C4 counterexample:
`(() => { for (let i = 0; i < 3; i = i + 1) { return 7; } return 9; })()`.
Under the claim the `Return` stops the loop and propagates, giving 7. -/
def progC4for : Node := Node.program
  [ .exprStmt (.call (.arrowFn []
      (.block
        [ .forStmt
            (.varDecl ("let")
              [ .varDeclarator (.ident ("i")) (some (litN 0)) ])
            (.binary ("<") (.ident ("i")) (litN 3))
            (.assign ("=") (.ident ("i"))
              (.binary ("+") (.ident ("i")) (litN 1)))
            (.block [ .ret (litN 7) ]),
          .ret (litN 9) ])) []) ]

/-- C4: the same loop as a `while`:
`(() => { let i = 0; while (i < 3) { i = i + 1; return 7; } return 9; })()`. -/
def progC4while : Node := Node.program
  [ .exprStmt (.call (.arrowFn []
      (.block
        [ .varDecl ("let") [ .varDeclarator (.ident ("i")) (some (litN 0)) ],
          .whileStmt (.binary ("<") (.ident ("i")) (litN 3))
            (.block
              [ .exprStmt (.assign ("=") (.ident ("i"))
                  (.binary ("+") (.ident ("i")) (litN 1))),
                .ret (litN 7) ]),
          .ret (litN 9) ])) []) ]

/-- C4: `(() => { let i = 0; while (i < 2) { i = i + 1; continue; } return i; })()`
— the `Continue` signal lets the `while` proceed to the re-test, so both
iterations run and the function returns 2. -/
def progC4whileCont : Node := Node.program
  [ .exprStmt (.call (.arrowFn []
      (.block
        [ .varDecl ("let") [ .varDeclarator (.ident ("i")) (some (litN 0)) ],
          .whileStmt (.binary ("<") (.ident ("i")) (litN 2))
            (.block
              [ .exprStmt (.assign ("=") (.ident ("i"))
                  (.binary ("+") (.ident ("i")) (litN 1))),
                .continueStmt ]),
          .ret (.ident ("i")) ])) []) ]

/-- C5: `const c = 1; c = 2;` — the assignment throws, nothing catches. -/
def progC5err : Node := Node.program
  [ .varDecl ("const") [ .varDeclarator (.ident ("c")) (some (litN 1)) ],
    .exprStmt (.assign ("=") (.ident ("c")) (litN 2)) ]

/-- C5: `(() => { const c = 1; try { c = 2; } catch (e) { return e; } })()`
— the immutability error is catchable and reaches the handler. -/
def progC5catch : Node := Node.program
  [ .exprStmt (.call (.arrowFn []
      (.block
        [ .varDecl ("const") [ .varDeclarator (.ident ("c")) (some (litN 1)) ],
          .tryStmt
            (some (.block
              [ .exprStmt (.assign ("=") (.ident ("c")) (litN 2)) ]))
            (some (.catchClause ("e") (.block [ .ret (.ident ("e")) ])))
            none ])) []) ]

/-- C5: `const o = { a: 1 }; o.a = 2; o.a` — writing into an object held
by a `const` binding succeeds and is observable. -/
def progC5obj : Node := Node.program
  [ .varDecl ("const")
      [ .varDeclarator (.ident ("o"))
          (some (.objExpr [(("a"), litN 1)])) ],
    .exprStmt (.assign ("=")
      (.memberExpr (.ident ("o")) (.ident ("a"))) (litN 2)),
    .exprStmt (.memberExpr (.ident ("o")) (.ident ("a"))) ]

/-- C6 failing input:
`let a = 0; let b = 0; switch (1) { case 1: a = 1; case 2: b = 1; } a + b`.
JS fallthrough (and the claim) give 2; the code re-tests `case 2`,
skips it, and gives 1. -/
def progC6fall : Node := Node.program
  [ .varDecl ("let") [ .varDeclarator (.ident ("a")) (some (litN 0)) ],
    .varDecl ("let") [ .varDeclarator (.ident ("b")) (some (litN 0)) ],
    .switchStmt (litN 1)
      [ (litN 1, [ .exprStmt (.assign ("=") (.ident ("a")) (litN 1)) ]),
        (litN 2, [ .exprStmt (.assign ("=") (.ident ("b")) (litN 1)) ]) ],
    .exprStmt (.binary ("+") (.ident ("a")) (.ident ("b"))) ]

/-- C6: `switch (1) { case 1: break; }` — `BreakStatement` has no handler
(`break` is at offsets 21..26 of that source text). -/
def progC6break : Node := Node.program
  [ .switchStmt (litN 1)
      [ (litN 1, [ .unsupported ("BreakStatement") 21 26 ]) ] ]

/-- C8 failing input:
`let n = 0; let get = () => { n = n + 1; return { m: () => 5 }; }; get().m(); n`.
Under the claim `get()` runs once and n ends as 1; the code runs it twice. -/
def progC8member : Node := Node.program
  [ .varDecl ("let") [ .varDeclarator (.ident ("n")) (some (litN 0)) ],
    .varDecl ("let")
      [ .varDeclarator (.ident ("get"))
          (some (.arrowFn []
            (.block
              [ .exprStmt (.assign ("=") (.ident ("n"))
                  (.binary ("+") (.ident ("n")) (litN 1))),
                .ret (.objExpr [(("m"), .arrowFn [] (litN 5))]) ]))) ],
    .exprStmt (.call
      (.memberExpr (.call (.ident ("get")) []) (.ident ("m"))) []),
    .exprStmt (.ident ("n")) ]

/-- C8 control: the same side-effecting callee invoked WITHOUT a member
callee: `let n = 0; let get = () => { n = n + 1; return 3; }; get(); n`. -/
def progC8plain : Node := Node.program
  [ .varDecl ("let") [ .varDeclarator (.ident ("n")) (some (litN 0)) ],
    .varDecl ("let")
      [ .varDeclarator (.ident ("get"))
          (some (.arrowFn []
            (.block
              [ .exprStmt (.assign ("=") (.ident ("n"))
                  (.binary ("+") (.ident ("n")) (litN 1))),
                .ret (litN 3) ]))) ],
    .exprStmt (.call (.ident ("get")) []),
    .exprStmt (.ident ("n")) ]

/-- C9 counterexample:
`(() => { try { !1; return 5; } catch (e) { return e; } })()` —
`UnaryExpression` has no handler (`!1` sits at offsets 15..17); the
structural error reaches the language-level `catch` handler, which
returns it. -/
def progC9caught : Node := Node.program
  [ .exprStmt (.call (.arrowFn []
      (.block
        [ .tryStmt
            (some (.block
              [ .exprStmt (.unsupported ("UnaryExpression") 15 17),
                .ret (litN 5) ]))
            (some (.catchClause ("e") (.block [ .ret (.ident ("e")) ])))
            none ])) []) ]

/-- C9: `!1` at top level — the structural error escapes uncaught. -/
def progC9uncaught : Node := Node.program
  [ .exprStmt (.unsupported ("UnaryExpression") 0 2) ]

/-! ## Claims -/

/-- C1: closures capture their defining environment by reference — the
program `(() => { let n = 0; const inc = () => { n = n + 1; return n; };
inc(); return inc(); })()` evaluates to 2: the second call of `inc`
observes the mutation of the captured `n` made by the first call. -/
theorem c1_closure_capture_by_reference :
    runProgram 1000 progC1 [] = some (Except.ok (Value.num 2)) :=
  (flatRes_ok_num _ 2).mp (by decide!)

/-- C2 counterexample: a `finally` clause that produces a `Continue`
signal does NOT override the try's pending outcome — it is discarded. In
`(() => { let i = 0; let j = 0; while (i < 1) { i = i + 1;
try { } finally { continue } j = 5; } return j; })()` the claimed
override would make the `Continue` skip the `j = 5` that follows the try
inside the loop body, giving 0; the code executes it and returns 5. -/
theorem c2_finally_continue_discarded :
    runProgram 1000 progC2continue [] = some (Except.ok (Value.num 5)) :=
  (flatRes_ok_num _ 5).mp (by decide!)

/-- C2 amended: a `finally` clause's outcome overrides the try block's
pending outcome only when it is a `Return` signal or a thrown condition;
a `Continue` signal produced by `finally` is discarded with the finally
scope (and `Break` signals are never produced, `break` having no
handler). In particular `try { return 1; } finally { return 2; }` as a
function body returns 2, and `try { return 1 } finally { throw 2 }`
propagates the thrown 2. -/
theorem c2_finally_override_amended :
    runProgram 1000 progC2ret [] = some (Except.ok (Value.num 2)) ∧
    runProgram 1000 progC2throw [] = some (Except.error (Value.num 2)) ∧
    runProgram 1000 progC2continue [] = some (Except.ok (Value.num 5)) :=
  ⟨(flatRes_ok_num _ 2).mp (by decide!),
   (flatRes_err_num _ 2).mp (by decide!),
   (flatRes_ok_num _ 5).mp (by decide!)⟩

/-- C3 (code bug): lookup does NOT target the innermost binding.
`scopeStack.findScope` scans the stack with `Array.prototype.find`, i.e.
from the OUTERMOST frame inward, so with frames 7 (outer, x ↦ 1) and 8
(inner, x ↦ 2) it returns frame 7, an identifier read yields 1, and the
program `let x = 1; (() => { let x = 2; return x; })()` evaluates to 1
where the spec's shadowing rule demands 2. -/
theorem c3_lookup_targets_outermost_bug :
    findScopeId stTwoScopes ("x") = some 7 ∧
    evaluateIdentifier ("x") (some []) stTwoScopes
      = some (Except.ok (Value.num 1), stTwoScopes) ∧
    runProgram 1000 progC3 [] = some (Except.ok (Value.num 1)) :=
  ⟨rfl, rfl, (flatRes_ok_num _ 1).mp (by decide!)⟩

/-- C4 counterexample: a `for` loop performs NO signal inspection after
its body. In `(() => { for (let i = 0; i < 3; i = i + 1) { return 7; }
return 9; })()` the claimed `Return` handling would stop the loop and
make the call return 7; the code keeps iterating, discards the signal
with the loop scope, and the call returns 9. -/
theorem c4_for_ignores_return_signal :
    runProgram 1000 progC4for [] = some (Except.ok (Value.num 9)) :=
  (flatRes_ok_num _ 9).mp (by decide!)

/-- C4 amended: only `while` loops inspect the pending signal after each
body evaluation — `Continue` proceeds to the re-test (the while with a
`continue` body runs both iterations and returns 2), `Return` stops
iteration and yields the carried value to the caller (the while version
returns 7 from the first iteration), and a `Break` flow would pop the
loop scope and exit (though no construct produces one, `break` being
unsupported); `for` loops inspect nothing, so the same `return 7` body
under a `for` loop iterates to completion and the function returns 9. -/
theorem c4_loop_signal_inspection_amended :
    runProgram 1000 progC4while [] = some (Except.ok (Value.num 7)) ∧
    runProgram 1000 progC4whileCont [] = some (Except.ok (Value.num 2)) ∧
    runProgram 1000 progC4for [] = some (Except.ok (Value.num 9)) :=
  ⟨(flatRes_ok_num _ 7).mp (by decide!),
   (flatRes_ok_num _ 2).mp (by decide!),
   (flatRes_ok_num _ 9).mp (by decide!)⟩

/-- C5: assigning to a `const` binding with an empty remaining key path
raises the `TypeError` "Assignment to constant variable" —
`const c = 1; c = 2;` aborts with it uncaught, and with a surrounding
`try`/`catch` the handler receives exactly that error value — while
assigning into an object reachable from a `const` binding succeeds:
`const o = {a:1}; o.a = 2; o.a` yields 2. -/
theorem c5_const_immutability :
    runProgram 1000 progC5err [] = some (Except.error constAssignErr) ∧
    runProgram 1000 progC5catch [] = some (Except.ok constAssignErr) ∧
    runProgram 1000 progC5obj [] = some (Except.ok (Value.num 2)) :=
  ⟨(flatRes_err_err _ ("TypeError") ("Assignment to constant variable")).mp
      (by decide!),
   (flatRes_ok_err _ ("TypeError") ("Assignment to constant variable")).mp
      (by decide!),
   (flatRes_ok_num _ 2).mp (by decide!)⟩

/-- C6 (code bug): `switch` has no real fallthrough — after a matching
case's statements, the NEXT case's test is evaluated and compared again,
so a non-matching adjacent case is skipped: in `let a = 0; let b = 0;
switch (1) { case 1: a = 1; case 2: b = 1; } a + b` the claimed
fallthrough gives 2, the code gives 1. Moreover `break` cannot terminate
a switch at all: `switch (1) { case 1: break; }` aborts with the
structural `Unsupported Syntax BreakStatement` error. -/
theorem c6_switch_fallthrough_bug :
    runProgram 1000 progC6fall [] = some (Except.ok (Value.num 1)) ∧
    runProgram 1000 progC6break []
      = some (Except.error (unsupportedSyntaxErr ("BreakStatement") 21 26)) :=
  ⟨(flatRes_ok_num _ 1).mp (by decide!),
   (flatRes_err_err _ ("Error")
      ("Unsupported Syntax BreakStatement at Location 21:26")).mp
      (by decide!)⟩

/-- C7: an identifier read that resolves in no frame of the scope chain
falls back to the externally supplied initial bindings table: if the name
is absent there too, the read yields the bare name as a string (no error
is raised), and if it is present (with a truthy value) the bound value is
returned. -/
theorem c7_unresolved_identifier_fallback (f : Nat) (name : String)
    (env : Env) (st : St) (h1 : findScopeId st name = none) :
    (envLookup env name = none →
      evaluate (f + 1) (Node.ident name) (some env) st
        = some (Except.ok (Value.str name), st)) ∧
    (∀ v : Value, envLookup env name = some v → truthy v = true →
      evaluate (f + 1) (Node.ident name) (some env) st
        = some (Except.ok v, st)) := by
  constructor
  · intro h2
    simp [evaluate, evaluateIdentifier, h1, h2]
  · intro v h2 h3
    simp [evaluate, evaluateIdentifier, h1, h2, h3]

/-- C7 witness: in the empty state, with the table binding only `y`,
reading `x` yields the string `x`. -/
theorem c7_unresolved_identifier_fallback_witness :
    evaluate 1 (Node.ident ("x")) (some [(("y"), Value.num 5)]) emptySt
      = some (Except.ok (Value.str ("x")), emptySt) :=
  (c7_unresolved_identifier_fallback 0 ("x") [(("y"), Value.num 5)] emptySt
    (by rfl)).1 (by rfl)

/-- C8 (code bug): calling through a member expression evaluates the
object operand TWICE — once (without an env) to produce the receiver
passed via `Function.prototype.call`, and once more while evaluating the
member-expression callee. In `let n = 0; let get = () => { n = n + 1;
return { m: () => 5 }; }; get().m(); n` the claimed single evaluation
leaves n at 1; the code leaves it at 2. The same side-effecting callee
invoked without a member callee runs once (n ends at 1). -/
theorem c8_member_call_object_evaluated_twice :
    runProgram 1000 progC8member [] = some (Except.ok (Value.num 2)) ∧
    runProgram 1000 progC8plain [] = some (Except.ok (Value.num 1)) :=
  ⟨(flatRes_ok_num _ 2).mp (by decide!),
   (flatRes_ok_num _ 1).mp (by decide!)⟩

/-- C9 counterexample: the structural `Unsupported Syntax` error CAN be
caught at the language level — in `(() => { try { !1; return 5; }
catch (e) { return e; } })()` the unrecognized `UnaryExpression` makes
the `catch` handler run with the error bound to `e`, and the call returns
that error value instead of aborting. -/
theorem c9_structural_error_catchable :
    runProgram 1000 progC9caught []
      = some (Except.ok (unsupportedSyntaxErr ("UnaryExpression") 15 17)) :=
  (flatRes_ok_err _ ("Error")
      ("Unsupported Syntax UnaryExpression at Location 15:17")).mp
    (by decide!)

/-- C9 amended: an AST node whose type tag has no handler makes
evaluation throw an `Error` reporting the node's type and its source
start/end offsets, with no internal retry — uncaught, it aborts the whole
evaluation (`!1` at top level escapes as that error) — but it travels on
the same host-exception channel as user-thrown values, so an enclosing
language-level `try`/`catch` can catch it. -/
theorem c9_structural_error_amended :
    runProgram 1000 progC9uncaught []
      = some (Except.error (unsupportedSyntaxErr ("UnaryExpression") 0 2)) ∧
    runProgram 1000 progC9caught []
      = some (Except.ok (unsupportedSyntaxErr ("UnaryExpression") 15 17)) :=
  ⟨(flatRes_err_err _ ("Error")
      ("Unsupported Syntax UnaryExpression at Location 0:2")).mp
      (by decide!),
   (flatRes_ok_err _ ("Error")
      ("Unsupported Syntax UnaryExpression at Location 15:17")).mp
      (by decide!)⟩

/-- C10: an identifier that is unbound in the scope chain but bound in
the global environment table to a falsy value (undefined, null, false, 0,
or the empty string) reads back as the identifier's NAME string, not the
bound value, because the fallback `env[name] || name` tests truthiness
rather than presence. -/
theorem c10_falsy_global_reads_as_name (f : Nat) (name : String)
    (env : Env) (st : St) (v : Value) (h1 : findScopeId st name = none)
    (h2 : envLookup env name = some v)
    (h3 : v = Value.undefined ∨ v = Value.null ∨ v = Value.bool false ∨
      v = Value.num 0 ∨ v = Value.str ("")) :
    evaluate (f + 1) (Node.ident name) (some env) st
      = some (Except.ok (Value.str name), st) := by
  rcases h3 with h | h | h | h | h <;> subst h <;>
    simp [evaluate, evaluateIdentifier, h1, h2, truthy]

/-- C10 witness: with the table binding `x` to 0 and no scope binding it,
reading `x` yields the string `x`, not 0. -/
theorem c10_falsy_global_reads_as_name_witness :
    evaluate 1 (Node.ident ("x")) (some [(("x"), Value.num 0)]) emptySt
      = some (Except.ok (Value.str ("x")), emptySt) :=
  c10_falsy_global_reads_as_name 0 ("x") [(("x"), Value.num 0)] emptySt
    (Value.num 0) (by rfl) (by rfl)
    (Or.inr (Or.inr (Or.inr (Or.inl rfl))))

end JsEval

